import Mathlib

/-!
Verification of the dynapcnn compiler backend of the sinabs repository.

This file is a shallow embedding of the code in
`src/sinabs/backend/dynapcnn/utils.py`,
`src/sinabs/backend/dynapcnn/dynapcnn_layer_new.py` and
`src/sinabs/backend/dynapcnn/dynapcnn_network_graph.py`.

Modelling conventions:
* Tensor values are real numbers; a 4-d weight tensor and a 1-d bias
  tensor are total functions from indices to reals.
* Torch tensors that the code mutates in place (`.data = ...`
  assignments) live in an explicit heap; `deepcopy` allocates fresh
  heap cells, so claims about the original layer being left unmodified
  are meaningful statements about the heap.
* Size arguments that torch stores verbatim (pooling kernel, stride,
  padding) are modelled as an int-or-pair sum type, mirroring
  `expand_to_pair` in utils.py.  `nn.Conv2d` normalises its size
  arguments to pairs, so convolution objects carry plain pairs.
* Python exceptions are an explicit error type and fallible code
  returns `Except`.  Exception messages are reproduced from the source,
  except that apostrophes are omitted (so the source message
  "Shapes don t match." is rendered "Shapes dont match.").
-/

noncomputable section

namespace Sinabs

/-- Four dimensional tensor (out channel, in channel, row, column), as a total function. -/
abbrev T4 : Type := ℕ → ℕ → ℕ → ℕ → ℝ

/-- One dimensional tensor (indexed by output channel), as a total function. -/
abbrev T1 : Type := ℕ → ℝ

/-- Python exceptions raised by the compilation code. -/
inductive Err
  | valueError (msg : String)
  | typeError (msg : String)
  | exception (msg : String)
  | indexError
  | attributeError (msg : String)
  | runtimeError (msg : String)
  deriving DecidableEq

/-- A torch size argument as stored by pooling layers: a plain int or an explicit pair. -/
inductive IntOrPair
  | int (n : ℕ)
  | pair (p : ℕ × ℕ)
  deriving DecidableEq

/-- Embeds `expand_to_pair` from utils.py: an int becomes a pair, a pair is returned as is. -/
def expand_to_pair : IntOrPair → ℕ × ℕ
  | .int n => (n, n)
  | .pair p => p

/-- Python `expand_to_pair` applied to an optional stride: `None` is not an int, so it is
returned unchanged (`None`). -/
def expandOptStride : Option IntOrPair → Option (ℕ × ℕ)
  | none => none
  | some v => some (expand_to_pair v)

/-- State of an `nn.AvgPool2d` module: torch stores the constructor arguments verbatim. -/
structure AvgPoolObj where
  kernel_size : IntOrPair
  stride : Option IntOrPair
  padding : IntOrPair
  deriving DecidableEq

/-- State of a `sinabs.layers.SumPool2d` module (a subclass of `nn.LPPool2d` with
norm type 1).  `nn.LPPool2d` has no padding argument and stores `stride` verbatim,
so a default-constructed sum pooling has `stride = none`. -/
structure SumPoolObj where
  kernel_size : IntOrPair
  stride : Option IntOrPair
  deriving DecidableEq

/-- State of a spiking layer (`sinabs.layers` `IAFSqueeze` or other `SpikingLayer`);
only the spiking threshold is needed by the claims (membrane state is not modelled). -/
structure SpkObj where
  spike_threshold : ℝ

/-- State of an `nn.BatchNorm2d` module: per-channel running statistics and the
optional affine parameters. -/
structure BNObj where
  running_mean : T1
  running_var : T1
  affine : Bool
  weight : T1
  bias : T1

/-- State of an `nn.Conv2d` module.  `nn.Conv2d` normalises kernel size, stride,
padding and dilation to pairs.  The weight and the optional bias are references
into the tensor heap (torch parameters are mutable in place). -/
structure ConvObj where
  out_channels : ℕ
  in_channels : ℕ
  kernel_size : ℕ × ℕ
  stride : ℕ × ℕ
  padding : ℕ × ℕ
  dilation : ℕ × ℕ
  weightRef : ℕ
  biasRef : Option ℕ
  deriving DecidableEq

/-- State of an `nn.Linear` module.  Its weight has shape
(out features, in features); linear layers are never mutated in place by the
code under verification, so their parameters are stored by value. -/
structure LinObj where
  in_features : ℕ
  out_features : ℕ
  weight : ℕ → ℕ → ℝ
  bias : Option T1

/-- A convolution described by value (used for freshly created convolutions before
they are allocated on the heap). -/
structure PureConv where
  out_channels : ℕ
  in_channels : ℕ
  kernel_size : ℕ × ℕ
  stride : ℕ × ℕ
  padding : ℕ × ℕ
  dilation : ℕ × ℕ
  weight : T4
  bias : Option T1

/-- A torch module as it appears in the layer lists consumed by the builder.
`flatten` stands for any module of a kind the builder does not accept
(for instance `nn.Flatten`), used as a scan terminator. -/
inductive NNModule
  | conv2d (c : ConvObj)
  | linear (l : LinObj)
  | batchNorm2d (bn : BNObj)
  | spiking (s : SpkObj)
  | avgPool2d (p : AvgPoolObj)
  | sumPool2d (p : SumPoolObj)
  | flatten

/-- The heap of torch tensors: separate stores (and fresh-reference counters)
for 4-d weight tensors and 1-d bias tensors. -/
structure Heap where
  w : ℕ → T4
  b : ℕ → T1
  nw : ℕ
  nb : ℕ

/-- Allocate a fresh 4-d tensor, returning the new heap and the reference. -/
def Heap.allocW (h : Heap) (t : T4) : Heap × ℕ :=
  ({ h with w := Function.update h.w h.nw t, nw := h.nw + 1 }, h.nw)

/-- Allocate a fresh 1-d tensor, returning the new heap and the reference. -/
def Heap.allocB (h : Heap) (t : T1) : Heap × ℕ :=
  ({ h with b := Function.update h.b h.nb t, nb := h.nb + 1 }, h.nb)

/-- Overwrite a 4-d tensor in place (a Python `tensor.data = ...` assignment). -/
def Heap.writeW (h : Heap) (r : ℕ) (t : T4) : Heap :=
  { h with w := Function.update h.w r t }

/-- Overwrite a 1-d tensor in place (a Python `tensor.data = ...` assignment). -/
def Heap.writeB (h : Heap) (r : ℕ) (t : T1) : Heap :=
  { h with b := Function.update h.b r t }

/-- Well-formedness of a convolution object with respect to a heap: its tensor
references point into the allocated part of the heap. -/
def Heap.wfConv (h : Heap) (c : ConvObj) : Prop :=
  c.weightRef < h.nw ∧ ∀ r, c.biasRef = some r → r < h.nb

/-- Embeds `merge_conv_bn` from utils.py, line by line:
reads the running statistics, the optional affine parameters
(`gamma, beta = 1.0, 0.0` when not affine), forms
`factor = gamma / sigmasq.sqrt()`, clones the current weight and bias values,
deep-copies the convolution (fresh heap cells holding the same values), and then
assigns the folded weight and the folded bias into the copy.
When the convolution has no bias, the deep copy has `bias = None` as well and the
final assignment `conv.bias.data = ...` raises an `AttributeError` (the weight of
the copy has already been overwritten at that point). -/
def merge_conv_bn (h : Heap) (conv : ConvObj) (bn : BNObj) : Heap × Except Err ConvObj :=
  let mu := bn.running_mean
  let sigmasq := bn.running_var
  let gamma : T1 := fun c => if bn.affine then bn.weight c else 1
  let beta : T1 := fun c => if bn.affine then bn.bias c else 0
  let factor : T1 := fun c => gamma c / Real.sqrt (sigmasq c)
  let c_weight : T4 := h.w conv.weightRef
  let c_bias : T1 :=
    match conv.biasRef with
    | none => fun _ => 0
    | some r => h.b r
  match conv.biasRef with
  | some r =>
    let aw := h.allocW c_weight
    let ab := aw.1.allocB (h.b r)
    let h2 := ab.1.writeW aw.2 (fun o i x y => c_weight o i x y * factor o)
    let h3 := h2.writeB ab.2 (fun o => beta o + (c_bias o - mu o) * factor o)
    (h3, .ok { conv with weightRef := aw.2, biasRef := some ab.2 })
  | none =>
    let aw := h.allocW c_weight
    let h2 := aw.1.writeW aw.2 (fun o i x y => c_weight o i x y * factor o)
    (h2, .error (.attributeError "NoneType object has no attribute data"))

/-- True exactly on the module kinds consumed by the pooling scan in
`construct_next_pooling_layer` (`nn.AvgPool2d` and `sinabs` `SumPool2d`). -/
def isPoolB : NNModule → Bool
  | .avgPool2d _ => true
  | .sumPool2d _ => true
  | _ => false

/-- A pooling module passes the checks of the scan in
`construct_next_pooling_layer`: an average pooling needs `padding == 0`
(an int-valued zero: a pair compares unequal to the int `0` in Python) and
expanded kernel equal to expanded stride; a sum pooling needs only the latter. -/
def scanOkB : NNModule → Bool
  | .avgPool2d p =>
    decide (p.padding = .int 0 ∧ expandOptStride p.stride = some (expand_to_pair p.kernel_size))
  | .sumPool2d p =>
    decide (expandOptStride p.stride = some (expand_to_pair p.kernel_size))
  | _ => false

/-- The expanded pooling kernel of a pooling module (and `(1, 1)` on the others,
the neutral element of the cumulative product). -/
def poolKernel : NNModule → ℕ × ℕ
  | .avgPool2d p => expand_to_pair p.kernel_size
  | .sumPool2d p => expand_to_pair p.kernel_size
  | _ => (1, 1)

/-- The raw (unexpanded) kernel size of a pooling module (and the neutral
`int 1` on the others). -/
def poolKernelRaw : NNModule → IntOrPair
  | .avgPool2d p => p.kernel_size
  | .sumPool2d p => p.kernel_size
  | _ => .int 1

/-- The raw stride of a pooling module (and `none` on the others). -/
def poolStrideOpt : NNModule → Option IntOrPair
  | .avgPool2d p => p.stride
  | .sumPool2d p => p.stride
  | _ => none

/-- The elementwise product of the expanded pooling kernels of a list of modules. -/
def cumKernel : List NNModule → ℕ × ℕ
  | [] => (1, 1)
  | m :: rest => ((poolKernel m).1 * (cumKernel rest).1, (poolKernel m).2 * (cumKernel rest).2)

/-- The product of the pooling-kernel areas of a list of modules. -/
def areaProd : List NNModule → ℕ
  | [] => 1
  | m :: rest => (poolKernel m).1 * (poolKernel m).2 * areaProd rest

/-- The loop of `construct_next_pooling_layer`: `i` is the index of the head of
the remaining list, the accumulators mirror `cumulative_pooling` and
`rescale_factor`.  When the loop runs off the end of the list, Python leaves
`idx_next` at the index of the last element it iterated over (`i - 1`, which is
also `0` for an empty list, matching the initial `idx_next = 0`); when it breaks
at a non-pooling module, `idx_next` is the index of that module. -/
def poolScan : List NNModule → ℕ × ℕ → ℕ → ℕ → Except Err ((ℕ × ℕ) × ℕ × ℕ)
  | [], cum, r, i => .ok (cum, r, i - 1)
  | m :: rest, cum, r, i =>
    match m with
    | .avgPool2d p =>
      if p.padding ≠ .int 0 then
        .error (.valueError "Padding is not supported for the pooling layers")
      else
        let pooling := expand_to_pair p.kernel_size
        if expandOptStride p.stride ≠ some pooling then
          .error (.valueError "Stride length should be the same as pooling kernel size")
        else
          poolScan rest (cum.1 * pooling.1, cum.2 * pooling.2) (r * (pooling.1 * pooling.2)) (i + 1)
    | .sumPool2d p =>
      let pooling := expand_to_pair p.kernel_size
      if expandOptStride p.stride ≠ some pooling then
        .error (.valueError "Stride length should be the same as pooling kernel size")
      else
        poolScan rest (cum.1 * pooling.1, cum.2 * pooling.2) (r * (pooling.1 * pooling.2)) (i + 1)
    | _ => .ok (cum, r, i)

/-- Embeds `construct_next_pooling_layer` from utils.py: consolidates the leading
pooling modules of `layers`; if no pooling was consumed (cumulative kernel still
`(1, 1)`), returns no pooling layer and rescale factor 1, otherwise returns a
`SumPool2d` with the cumulative kernel (constructed with a default stride) and the
accumulated rescale factor. -/
def construct_next_pooling_layer (layers : List NNModule) :
    Except Err (Option SumPoolObj × ℕ × ℕ) :=
  match poolScan layers (1, 1) 1 0 with
  | .error e => .error e
  | .ok (cum, r, idx) =>
    if cum = (1, 1) then .ok (none, idx, 1)
    else .ok (some { kernel_size := .pair cum, stride := none }, idx, r)

/-- Embeds `DynapcnnLayer.get_conv_output_shape` from dynapcnn_layer_new.py.
The height and width computations use Python floor division (`//`), modelled by
`Int.fdiv`. -/
def get_conv_output_shape (c : ConvObj) (input_shape : ℕ × ℕ × ℕ) : ℕ × ℤ × ℤ :=
  let out_height :=
    Int.fdiv ((input_shape.2.1 : ℤ) + 2 * (c.padding.1 : ℤ)
      - (c.dilation.1 : ℤ) * ((c.kernel_size.1 : ℤ) - 1) - 1) (c.stride.1 : ℤ) + 1
  let out_width :=
    Int.fdiv ((input_shape.2.2 : ℤ) + 2 * (c.padding.2 : ℤ)
      - (c.dilation.2 : ℤ) * ((c.kernel_size.2 : ℤ) - 1) - 1) (c.stride.2 : ℤ) + 1
  (c.out_channels, out_height, out_width)

/-- The row-major reshape of a linear weight of shape (out features, in features)
into a convolution weight of shape (out features, c, h, w): entry
`(o, ci, i, j)` is linear entry `(o, ci * (h * w) + i * w + j)`. -/
def reshape_lin_weight (l : LinObj) (hh ww : ℕ) : T4 :=
  fun o ci i j => l.weight o (ci * (hh * ww) + i * ww + j)

/-- Flattening a 4-d convolution weight of kernel shape (h, w) back to the
(out features, in features) layout of a linear weight. -/
def flatten_weight (hh ww : ℕ) (wgt : T4) : ℕ → ℕ → ℝ :=
  fun o f => wgt o (f / (hh * ww)) (f % (hh * ww) / ww) (f % (hh * ww) % ww)

/-- Embeds `DynapcnnLayer._convert_linear_to_conv` from dynapcnn_layer_new.py:
with declared input shape (c, h, w), requires `in_features == c * h * w`
(raising `ValueError` otherwise, the shape-mismatch error of the spec) and builds
a convolution with kernel `(h, w)`, `out_channels = lin.out_features`,
padding 0 and the torch defaults stride 1 and dilation 1; the weight is the
row-major reshape of the linear weight and the bias is cloned when present. -/
def convert_linear_to_conv (l : LinObj) (input_shape : ℕ × ℕ × ℕ) : Except Err PureConv :=
  let c := input_shape.1
  let hh := input_shape.2.1
  let ww := input_shape.2.2
  if l.in_features ≠ c * hh * ww then .error (.valueError "Shapes dont match.")
  else
    .ok { out_channels := l.out_features, in_channels := c, kernel_size := (hh, ww),
          stride := (1, 1), padding := (0, 0), dilation := (1, 1),
          weight := reshape_lin_weight l hh ww, bias := l.bias }

/-- Read a convolution object back into a by-value description
(used for `deepcopy`: the copy holds the current tensor values). -/
def deepcopyConvVal (h : Heap) (c : ConvObj) : PureConv :=
  { out_channels := c.out_channels, in_channels := c.in_channels,
    kernel_size := c.kernel_size, stride := c.stride, padding := c.padding,
    dilation := c.dilation, weight := h.w c.weightRef, bias := c.biasRef.map h.b }

/-- Allocate a by-value convolution on the heap, producing a convolution object
with fresh tensor references. -/
def Heap.allocConv (h : Heap) (pc : PureConv) : Heap × ConvObj :=
  let aw := h.allocW pc.weight
  match pc.bias with
  | none =>
    (aw.1, { out_channels := pc.out_channels, in_channels := pc.in_channels,
             kernel_size := pc.kernel_size, stride := pc.stride, padding := pc.padding,
             dilation := pc.dilation, weightRef := aw.2, biasRef := none })
  | some bv =>
    let ab := aw.1.allocB bv
    (ab.1, { out_channels := pc.out_channels, in_channels := pc.in_channels,
             kernel_size := pc.kernel_size, stride := pc.stride, padding := pc.padding,
             dilation := pc.dilation, weightRef := aw.2, biasRef := some ab.2 })

/-- Rounding toward zero on the reals (truncation). -/
def truncTowardZero (x : ℝ) : ℝ := if 0 ≤ x then (⌊x⌋ : ℝ) else (⌈x⌉ : ℝ)

/-- Modelled from the spec: `discretize_conv_spike_` (module
`sinabs/backend/dynapcnn/discretize.py`, absent from src/) maps the convolution
weight and bias and the spiking threshold through one shared scale factor and
rounds toward zero; with `to_int=False` the values stay in floating point (the
integer conversion is deferred to configuration assembly).  The computation of
the shared scale is also absent from src/, so the scale is a parameter here. -/
def discretize_conv_spike (scale : ℝ) (wgt : T4) (bias : Option T1) (threshold : ℝ) :
    T4 × Option T1 × ℝ :=
  (fun o c i j => truncTowardZero (scale * wgt o c i j),
   bias.map (fun bv => fun o => truncTowardZero (scale * bv o)),
   truncTowardZero (scale * threshold))

/-- In-place discretization of a convolution object and a spiking layer
(the trailing-underscore torch convention of `discretize_conv_spike_`):
the discretized tensors are written back into the same heap cells. -/
def applyDiscretize (h : Heap) (c : ConvObj) (spk : SpkObj) (scale : ℝ) : Heap × SpkObj :=
  let res := discretize_conv_spike scale (h.w c.weightRef) (c.biasRef.map h.b) spk.spike_threshold
  let h1 := h.writeW c.weightRef res.1
  let h2 :=
    match c.biasRef, res.2.1 with
    | some r, some bv => h1.writeB r bv
    | _, _ => h1
  (h2, { spike_threshold := res.2.2 })

/-- The pooling loop at the end of `DynapcnnLayer.__init__`: each pooling layer
must have a square kernel (`kernel_size[0] != kernel_size[1]` raises
`ValueError("Only square kernels are supported")`; subscripting an int-valued
kernel size would raise a `TypeError`); accepted poolings are deep-copied
(by value here) in order. -/
def checkPools : List SumPoolObj → Except Err (List SumPoolObj)
  | [] => .ok []
  | p :: rest =>
    match p.kernel_size with
    | .int _ => .error (.typeError "int object is not subscriptable")
    | .pair q =>
      if q.1 ≠ q.2 then .error (.valueError "Only square kernels are supported")
      else
        match checkPools rest with
        | .error e => .error e
        | .ok ps => .ok (p :: ps)

/-- The first slot of a dynapcnn layer group: a convolution or a linear module. -/
inductive ConvOrLin
  | conv2d (c : ConvObj)
  | lin (l : LinObj)

/-- The compiled hardware-layer descriptor produced by `DynapcnnLayer.__init__`. -/
structure DynapcnnLayerObj where
  conv_layer : ConvObj
  spk_layer : SpkObj
  pool_layer : List SumPoolObj

/-- Embeds `DynapcnnLayer.__init__` from dynapcnn_layer_new.py (the convolution,
spiking and pooling members of the layer group are passed directly; the
dictionary scan of lines 66-85 only extracts them).  Steps, in source order:
the spiking layer is deep-copied (membrane-state reshaping is not modelled);
a linear first node is converted by `_convert_linear_to_conv` (a fresh
`nn.Conv2d`, hence fresh tensors; the shape bookkeeping updates of the
node-data dictionary are not modelled), otherwise the convolution is
deep-copied; then, if `rescale_weights != 1`, the copied weight is overwritten
by `conv.weight / rescale_weights` (after copying); then, if `discretize`,
`discretize_conv_spike_` rewrites the copied tensors in place (after the
rescale division); finally each pooling layer is checked to have a square
kernel. -/
def DynapcnnLayer_init (h : Heap) (conv : ConvOrLin) (spk : SpkObj)
    (pool : List SumPoolObj) (in_shape : ℕ × ℕ × ℕ) (discretize : Bool)
    (discScale : ℝ) (rescale_weights : ℚ) : Heap × Except Err DynapcnnLayerObj :=
  match (match conv with
         | .lin l => convert_linear_to_conv l in_shape
         | .conv2d c => .ok (deepcopyConvVal h c)) with
  | .error e => (h, .error e)
  | .ok pc =>
    let ac := h.allocConv pc
    let h1 := ac.1
    let c1 := ac.2
    let h2 :=
      if rescale_weights ≠ 1 then
        h1.writeW c1.weightRef
          (fun o ci i j => h1.w c1.weightRef o ci i j / (rescale_weights : ℝ))
      else h1
    let hs := if discretize then applyDiscretize h2 c1 spk discScale else (h2, spk)
    match checkPools pool with
    | .error e => (hs.1, .error e)
    | .ok ps => (hs.1, .ok { conv_layer := c1, spk_layer := hs.2, pool_layer := ps })

/-- Helper for `construct_next_dynapcnn_layer`: the steps from the spiking-layer
check on.  `rem` is `layers[idx:]` where `idx` is the current value of
`layer_idx_next` (pointing at the expected spiking layer); an exhausted list is
the caught `IndexError` (`TypeError` about the end of the network), a
non-spiking module is the `TypeError` of the isinstance check; then the trailing
poolings are consolidated, the layer is composed, and the index past the
consumed modules plus the post-pooling rescale factor are returned. -/
def construct_tail (h : Heap) (lyr_conv : ConvOrLin) (rem : List NNModule) (idx : ℕ)
    (in_shape : ℕ × ℕ × ℕ) (discretize : Bool) (discScale : ℝ) (rescale_factor : ℚ) :
    Heap × Except Err (DynapcnnLayerObj × ℕ × ℕ) :=
  match rem with
  | [] =>
    (h, .error (.typeError "Convolution must be followed by spiking layer. End of network found."))
  | m :: rem1 =>
    match m with
    | .spiking s =>
      match construct_next_pooling_layer rem1 with
      | .error e => (h, .error e)
      | .ok (lyr_pool, i_next, rescale_after) =>
        let pools := match lyr_pool with | none => [] | some p => [p]
        match DynapcnnLayer_init h lyr_conv s pools in_shape discretize discScale rescale_factor with
        | (h1, .error e) => (h1, .error e)
        | (h1, .ok lay) => (h1, .ok (lay, idx + 1 + i_next, rescale_after))
    | _ => (h, .error (.typeError "Convolution must be followed by spiking layer"))

/-- Embeds `construct_next_dynapcnn_layer` from utils.py: the first module must
be `nn.Conv2d` or `nn.Linear`; a batch norm in second position is folded into a
convolution first module by `merge_conv_bn` (after a linear first module the
fold produces a weight of mismatched shape that fails at the later reshape,
modelled as an immediate `RuntimeError`); accessing `layers[1]` of a singleton
list raises `IndexError`.  The remaining steps (`construct_tail`) find the
spiking layer, consolidate trailing poolings and compose the `DynapcnnLayer`
with `rescale_weights := rescale_factor` — the incoming factor, not the factor
of the freshly consolidated poolings, which is only returned. -/
def construct_next_dynapcnn_layer (h : Heap) (layers : List NNModule)
    (in_shape : ℕ × ℕ × ℕ) (discretize : Bool) (discScale : ℝ) (rescale_factor : ℚ) :
    Heap × Except Err (DynapcnnLayerObj × ℕ × ℕ) :=
  match layers with
  | [] => (h, .error .indexError)
  | l0 :: rest =>
    match (match l0 with
           | .conv2d c => Except.ok (ConvOrLin.conv2d c)
           | .linear l => Except.ok (ConvOrLin.lin l)
           | _ => Except.error
               (Err.exception "The list of layers needs to start with Conv2d or Linear.")) with
    | .error e => (h, .error e)
    | .ok cl0 =>
      match rest with
      | [] => (h, .error .indexError)
      | m1 :: rest1 =>
        match m1 with
        | .batchNorm2d bn =>
          match cl0 with
          | .conv2d c =>
            match merge_conv_bn h c bn with
            | (h1, .error e) => (h1, .error e)
            | (h1, .ok cmerged) =>
              construct_tail h1 (.conv2d cmerged) rest1 2 in_shape discretize discScale
                rescale_factor
          | .lin _ => (h, .error (.runtimeError "cannot reshape weight of merged linear"))
        | _ => construct_tail h cl0 rest 1 in_shape discretize discScale rescale_factor

/-- The external, target-specific configuration builder used by
`DynapcnnNetworkGraph._make_config` (`ChipFactory(device).get_config_builder()`,
outside src/): it assembles a configuration, enables monitors on it and
validates it.  Its operations are parameters of the embedding. -/
structure ConfigBuilder (Config : Type) where
  build : Config
  monitor : Config → Config
  validate : Config → Bool

/-- Embeds `DynapcnnNetworkGraph._make_config` from dynapcnn_network_graph.py:
builds the configuration, enables the requested monitors, applies the optional
user configuration modifier, and returns the configuration together with the
result of `validate_configuration` on that final configuration.
(The core mapping of `chip_layers_ordering` and the DVS-merge flag only modify
the configuration contents and are subsumed in the builder parameters.) -/
def make_config_inner {Config : Type} (cb : ConfigBuilder Config)
    (config_modifier : Option (Config → Config)) : Config × Bool :=
  let config := cb.build
  let config := cb.monitor config
  let config :=
    match config_modifier with
    | some f => f config
    | none => config
  (config, cb.validate config)

/-- Embeds `DynapcnnNetworkGraph.make_config` from dynapcnn_network_graph.py:
returns the configuration when `_make_config` reports it compatible, and raises
`ValueError("Generated config is not valid for <device>")` otherwise. -/
def make_config {Config : Type} (cb : ConfigBuilder Config)
    (config_modifier : Option (Config → Config)) (device : String) : Except Err Config :=
  let r := make_config_inner cb config_modifier
  if r.2 then .ok r.1
  else .error (.valueError ("Generated config is not valid for " ++ device))

/-- The effect of the `rescale_weights` step of `DynapcnnLayer.__init__` on a
weight tensor value: division by the factor, skipped when the factor is 1. -/
def rescaleTensor (q : ℚ) (t : T4) : T4 :=
  if q ≠ 1 then (fun o ci i j => t o ci i j / (q : ℝ)) else t

/-- The effect of the discretization step of `DynapcnnLayer.__init__` on a weight
tensor value: scaling and rounding toward zero, skipped when `discretize` is off. -/
def discTensor (disc : Bool) (scale : ℝ) (t : T4) : T4 :=
  if disc then (fun o ci i j => truncTowardZero (scale * t o ci i j)) else t

/-- Fixture: an average pooling with square kernel (k, k), stride equal to the
kernel and zero padding. -/
def avgSq (k : ℕ) : NNModule :=
  .avgPool2d { kernel_size := .pair (k, k), stride := some (.pair (k, k)), padding := .int 0 }

/-- Fixture: a sum pooling with square kernel (k, k) and stride equal to the kernel. -/
def sumSq (k : ℕ) : NNModule :=
  .sumPool2d { kernel_size := .pair (k, k), stride := some (.pair (k, k)) }

/-- Fixture: a bias-less 3-to-16-channel convolution with kernel (3, 3), stride 1,
padding 0, dilation 1, whose weight lives at heap reference 0. -/
def convEx : ConvObj :=
  { out_channels := 16, in_channels := 3, kernel_size := (3, 3), stride := (1, 1),
    padding := (0, 0), dilation := (1, 1), weightRef := 0, biasRef := none }

/-- Fixture: the linear layer of the spec example, in_features 12, out_features 4,
weight entry (o, f) equal to o * 12 + f, no bias. -/
def linEx : LinObj :=
  { in_features := 12, out_features := 4, weight := fun o f => (o * 12 + f : ℝ), bias := none }

/-- Fixture: a heap with three allocated weight tensors, the constant tensors
2, 5 and 3 at references 0, 1 and 2. -/
def heap3 : Heap :=
  { w := fun r =>
      if r = 0 then (fun _ _ _ _ => 2)
      else if r = 1 then (fun _ _ _ _ => 5)
      else if r = 2 then (fun _ _ _ _ => 3)
      else fun _ _ _ _ => 0,
    b := fun _ => fun _ => 0, nw := 3, nb := 0 }

/-- Fixture: a bias-less 1-channel convolution with kernel (1, 1), weight at
heap reference 0. -/
def convU : ConvObj :=
  { out_channels := 1, in_channels := 1, kernel_size := (1, 1), stride := (1, 1),
    padding := (0, 0), dilation := (1, 1), weightRef := 0, biasRef := none }

/-- Fixture: like `convU` but with its weight at heap reference 1. -/
def convM : ConvObj := { convU with weightRef := 1 }

/-- Fixture: like `convU` but with its weight at heap reference 2. -/
def convD : ConvObj := { convU with weightRef := 2 }

/-- Fixture: a three-group layer chain — group U (conv, spiking), group M
(conv, spiking, average pooling 2x2), group D (conv, spiking). -/
def chain3 : List NNModule :=
  [.conv2d convU, .spiking ⟨1⟩, .conv2d convM, .spiking ⟨1⟩, avgSq 2,
   .conv2d convD, .spiking ⟨1⟩]

/-- Fixture: a two-group layer chain whose second group carries a non-square
sum pooling with kernel (2, 3) and matching stride. -/
def chainNS : List NNModule :=
  [.conv2d convU, .spiking ⟨1⟩, .conv2d convM, .spiking ⟨1⟩,
   .sumPool2d { kernel_size := .pair (2, 3), stride := some (.pair (2, 3)) }]

/-! ### General lemmas about the pooling scan -/

theorem poolScan_break {m : NNModule} (hm : isPoolB m = false) (rest : List NNModule)
    (cum : ℕ × ℕ) (r i : ℕ) : poolScan (m :: rest) cum r i = .ok (cum, r, i) := by
  cases m <;> simp_all [isPoolB, poolScan]

theorem poolScan_append_ok (chain : List NNModule)
    (hch : ∀ m ∈ chain, isPoolB m = true ∧ scanOkB m = true) (ls : List NNModule) :
    ∀ (cum : ℕ × ℕ) (r i : ℕ),
      poolScan (chain ++ ls) cum r i =
        poolScan ls (cum.1 * (cumKernel chain).1, cum.2 * (cumKernel chain).2)
          (r * areaProd chain) (i + chain.length) := by
  induction chain with
  | nil =>
    intro cum r i
    simp [cumKernel, areaProd]
  | cons m rest ih =>
    intro cum r i
    have hm := (List.forall_mem_cons.mp hch).1
    have hrest := (List.forall_mem_cons.mp hch).2
    cases m
    case avgPool2d p =>
      have hok : p.padding = IntOrPair.int 0 ∧
          expandOptStride p.stride = some (expand_to_pair p.kernel_size) := by
        simpa [scanOkB] using hm.2
      simp only [List.cons_append, poolScan, hok.1, hok.2, ne_eq, not_true_eq_false,
        if_false, ite_false, not_false_eq_true, List.append_eq]
      rw [ih hrest]
      simp only [cumKernel, areaProd, poolKernel, List.length_cons]
      ring_nf
    case sumPool2d p =>
      have hok : expandOptStride p.stride = some (expand_to_pair p.kernel_size) := by
        simpa [scanOkB] using hm.2
      simp only [List.cons_append, poolScan, hok, ne_eq, not_true_eq_false,
        if_false, ite_false, not_false_eq_true, List.append_eq]
      rw [ih hrest]
      simp only [cumKernel, areaProd, poolKernel, List.length_cons]
      ring_nf
    all_goals simp [isPoolB] at hm

theorem poolScan_ok_iff (ls : List NNModule) :
    ∀ (cum : ℕ × ℕ) (r i : ℕ),
      (∃ out, poolScan ls cum r i = .ok out) ↔
        ∀ m ∈ ls.takeWhile isPoolB, scanOkB m = true := by
  induction ls with
  | nil => intro cum r i; simp [poolScan]
  | cons m rest ih =>
    intro cum r i
    cases m
    case avgPool2d p =>
      by_cases hpad : p.padding = IntOrPair.int 0
      · by_cases hstr : expandOptStride p.stride = some (expand_to_pair p.kernel_size)
        · simp [poolScan, hpad, hstr, List.takeWhile_cons, isPoolB, scanOkB, ih]
        · simp [poolScan, hpad, hstr, List.takeWhile_cons, isPoolB, scanOkB]
      · simp [poolScan, hpad, List.takeWhile_cons, isPoolB, scanOkB]
    case sumPool2d p =>
      by_cases hstr : expandOptStride p.stride = some (expand_to_pair p.kernel_size)
      · simp [poolScan, hstr, List.takeWhile_cons, isPoolB, scanOkB, ih]
      · simp [poolScan, hstr, List.takeWhile_cons, isPoolB, scanOkB]
    all_goals
      simp [poolScan, List.takeWhile_cons, isPoolB]

theorem construct_pool_ok_iff (ls : List NNModule) :
    (∃ out, construct_next_pooling_layer ls = .ok out) ↔
      (∃ out, poolScan ls (1, 1) 1 0 = .ok out) := by
  unfold construct_next_pooling_layer
  cases h : poolScan ls (1, 1) 1 0 with
  | error e => simp
  | ok out =>
    obtain ⟨cum, r, i⟩ := out
    constructor
    · intro _
      exact ⟨_, rfl⟩
    · intro _
      by_cases hc : cum = (1, 1)
      · exact ⟨(none, i, 1), by simp [hc]⟩
      · exact ⟨(some { kernel_size := .pair cum, stride := none }, i, r), by
          rw [Prod.mk_one_one] at hc
          simp [hc]⟩

/-! ### Claims about pooling consolidation -/

/-- Claim C4: for every maximal chain of consecutive pooling layers consolidated by
`construct_next_pooling_layer` (each passing the kernel-equals-stride and padding
checks), the consolidated sum-pooling kernel is the elementwise product of the
individual pooling kernels, and the returned rescale factor is the product of the
kernel areas over the chain; in particular two consecutive average poolings with
kernel and stride (2, 2) consolidate into one sum pooling with cumulative kernel
(4, 4) and rescale factor 16, and an empty chain yields no pooling layer and
rescale factor 1. -/
theorem C4_pooling_consolidation :
    (∀ (chain : List NNModule) (m : NNModule) (rest : List NNModule),
        (∀ x ∈ chain, isPoolB x = true ∧ scanOkB x = true) →
        isPoolB m = false →
        cumKernel chain ≠ (1, 1) →
        construct_next_pooling_layer (chain ++ m :: rest) =
          .ok (some { kernel_size := .pair (cumKernel chain), stride := none },
            chain.length, areaProd chain))
    ∧ construct_next_pooling_layer [avgSq 2, avgSq 2] =
        .ok (some { kernel_size := .pair (4, 4), stride := none }, 1, 16)
    ∧ construct_next_pooling_layer [] = .ok (none, 0, 1)
    ∧ (∀ (m : NNModule) (rest : List NNModule), isPoolB m = false →
        construct_next_pooling_layer (m :: rest) = .ok (none, 0, 1)) := by
  refine ⟨?_, ?_, ?_, ?_⟩
  · intro chain m rest hch hm hK
    have hK1 : cumKernel chain ≠ 1 := by rw [← Prod.mk_one_one]; exact hK
    unfold construct_next_pooling_layer
    rw [poolScan_append_ok chain hch, poolScan_break hm]
    simp [Nat.zero_add, hK1]
  · rfl
  · rfl
  · intro m rest hm
    unfold construct_next_pooling_layer
    rw [poolScan_break hm]
    rfl

/-- Witness for C4: a single average pooling with kernel and stride (3, 3) and zero
padding, followed by a non-pooling module, consolidates to kernel (3, 3) with
rescale factor 9 at index 1. -/
theorem C4_pooling_consolidation_witness :
    construct_next_pooling_layer [avgSq 3, NNModule.flatten] =
      .ok (some { kernel_size := .pair (3, 3), stride := none }, 1, 9) := by
  have h := C4_pooling_consolidation.1 [avgSq 3] NNModule.flatten []
    (by decide) (by decide) (by decide)
  simpa [cumKernel, areaProd, poolKernel, expand_to_pair, avgSq] using h

/-- Claim C6: every pooling node scanned by the consolidation — average or sum
pooling alike — with kernel different from stride raises the stride
`ValueError` (the constraint violation of the spec), an average pooling with
nonzero padding raises the padding `ValueError`, and consolidation succeeds
exactly when every scanned pooling node passes both checks. -/
theorem C6_pooling_scan_checks (ls : List NNModule) :
    ((∃ out, construct_next_pooling_layer ls = .ok out) ↔
      ∀ m ∈ ls.takeWhile isPoolB, scanOkB m = true)
    ∧ (∀ (chain : List NNModule) (p : AvgPoolObj) (rest : List NNModule),
        (∀ x ∈ chain, isPoolB x = true ∧ scanOkB x = true) →
        p.padding ≠ IntOrPair.int 0 →
        construct_next_pooling_layer (chain ++ NNModule.avgPool2d p :: rest) =
          .error (.valueError "Padding is not supported for the pooling layers"))
    ∧ (∀ (chain : List NNModule) (m : NNModule) (rest : List NNModule),
        (∀ x ∈ chain, isPoolB x = true ∧ scanOkB x = true) →
        isPoolB m = true →
        (∀ q, m = NNModule.avgPool2d q → q.padding = IntOrPair.int 0) →
        expandOptStride (poolStrideOpt m) ≠ some (expand_to_pair (poolKernelRaw m)) →
        construct_next_pooling_layer (chain ++ m :: rest) =
          .error (.valueError "Stride length should be the same as pooling kernel size")) := by
  refine ⟨?_, ?_, ?_⟩
  · exact (construct_pool_ok_iff ls).trans (poolScan_ok_iff ls (1, 1) 1 0)
  · intro chain p rest hch hpad
    unfold construct_next_pooling_layer
    rw [poolScan_append_ok chain hch]
    simp [poolScan, hpad]
  · intro chain m rest hch hm hpad hstr
    unfold construct_next_pooling_layer
    rw [poolScan_append_ok chain hch]
    cases m
    case avgPool2d p =>
      have hp := hpad p rfl
      simp only [poolStrideOpt, poolKernelRaw] at hstr
      simp [poolScan, hp, hstr]
    case sumPool2d p =>
      simp only [poolStrideOpt, poolKernelRaw] at hstr
      simp [poolScan, hstr]
    all_goals simp [isPoolB] at hm

/-- Witness for C6: an average pooling with padding 1 raises the padding error, a
sum pooling with kernel (2, 2) but stride (1, 1) raises the stride error, and a
passing average pooling consolidates successfully. -/
theorem C6_pooling_scan_checks_witness :
    construct_next_pooling_layer
        [NNModule.avgPool2d ⟨.pair (2, 2), some (.pair (2, 2)), .int 1⟩] =
      .error (.valueError "Padding is not supported for the pooling layers")
    ∧ construct_next_pooling_layer
        [NNModule.sumPool2d ⟨.pair (2, 2), some (.pair (1, 1))⟩] =
      .error (.valueError "Stride length should be the same as pooling kernel size")
    ∧ (∃ out, construct_next_pooling_layer [avgSq 2] = .ok out) := by
  refine ⟨?_, ?_, ?_⟩
  · exact (C6_pooling_scan_checks []).2.1 []
      ⟨.pair (2, 2), some (.pair (2, 2)), .int 1⟩ [] (by decide) (by decide)
  · exact (C6_pooling_scan_checks []).2.2 []
      (NNModule.sumPool2d ⟨.pair (2, 2), some (.pair (1, 1))⟩)
      [] (by decide) (by decide) (by intro q hq; cases hq) (by decide)
  · exact (C6_pooling_scan_checks [avgSq 2]).1.mpr (by decide)

/-- Claim C10: on a non-empty list consisting only of pooling layers (each with
square kernel equal to its stride and zero padding), `construct_next_pooling_layer`
returns next-layer index `length - 1` — the index of the last pooling layer
itself, not `length` — although that last pooling layer's kernel and rescale
contribution are already included in the consolidated sum pooling it returns. -/
theorem C10_all_pooling_next_index (mods : List NNModule) (hne : mods ≠ [])
    (hall : ∀ m ∈ mods, isPoolB m = true ∧ scanOkB m = true ∧
      (poolKernel m).1 = (poolKernel m).2) :
    construct_next_pooling_layer mods =
      .ok ((if cumKernel mods = (1, 1) then none
            else some { kernel_size := .pair (cumKernel mods), stride := none }),
        mods.length - 1,
        if cumKernel mods = (1, 1) then 1 else areaProd mods) := by
  have hs := poolScan_append_ok mods (fun m hm => ⟨(hall m hm).1, (hall m hm).2.1⟩)
    [] (1, 1) 1 0
  rw [List.append_nil] at hs
  unfold construct_next_pooling_layer
  rw [hs]
  by_cases hc : cumKernel mods = (1, 1)
  · have hc1 : cumKernel mods = 1 := by rw [← Prod.mk_one_one]; exact hc
    simp [poolScan, hc1]
  · have hc1 : cumKernel mods ≠ 1 := by rw [← Prod.mk_one_one]; exact hc
    simp [poolScan, hc1]

/-- Witness for C10: two pooling layers with square kernels (2, 2) and (3, 3)
and nothing after them give next-layer index 1 (the index of the second pooling),
while the returned consolidated kernel (6, 6) and rescale factor 36 already
include the second pooling. -/
theorem C10_all_pooling_next_index_witness :
    construct_next_pooling_layer [avgSq 2, sumSq 3] =
      .ok (some { kernel_size := .pair (6, 6), stride := none }, 1, 36) := by
  have h := C10_all_pooling_next_index [avgSq 2, sumSq 3] (List.cons_ne_nil _ _) (by decide)
  simpa [cumKernel, areaProd, poolKernel, expand_to_pair, avgSq, sumSq] using h

/-! ### Claim about the convolution output shape -/

/-- Claim C3: for every convolution layer (positive strides, as torch guarantees)
the computed output shape is (out channels, and per dimension
floor((n + 2 pad − dilation (kernel − 1) − 1) / stride) + 1, applied
independently to height and width); in particular input (3, 32, 32) with
kernel 3, stride 1, padding 0 yields output height and width 30. -/
theorem C3_conv_output_shape (c : ConvObj) (input_shape : ℕ × ℕ × ℕ)
    (hs1 : 0 < c.stride.1) (hs2 : 0 < c.stride.2) :
    get_conv_output_shape c input_shape =
      (c.out_channels,
       ⌊((input_shape.2.1 : ℚ) + 2 * (c.padding.1 : ℚ)
           - (c.dilation.1 : ℚ) * ((c.kernel_size.1 : ℚ) - 1) - 1) / (c.stride.1 : ℚ)⌋ + 1,
       ⌊((input_shape.2.2 : ℚ) + 2 * (c.padding.2 : ℚ)
           - (c.dilation.2 : ℚ) * ((c.kernel_size.2 : ℚ) - 1) - 1) / (c.stride.2 : ℚ)⌋ + 1)
    ∧ get_conv_output_shape
        { out_channels := 16, in_channels := 3, kernel_size := (3, 3), stride := (1, 1),
          padding := (0, 0), dilation := (1, 1), weightRef := 0, biasRef := none }
        (3, 32, 32) = (16, 30, 30) := by
  constructor
  · simp only [get_conv_output_shape, Prod.mk.injEq, true_and]
    constructor
    · rw [Int.fdiv_eq_ediv _ (by positivity),
        show ((input_shape.2.1 : ℚ) + 2 * (c.padding.1 : ℚ)
            - (c.dilation.1 : ℚ) * ((c.kernel_size.1 : ℚ) - 1) - 1)
          = (((input_shape.2.1 : ℤ) + 2 * (c.padding.1 : ℤ)
            - (c.dilation.1 : ℤ) * ((c.kernel_size.1 : ℤ) - 1) - 1 : ℤ) : ℚ) by push_cast; ring,
        Rat.floor_intCast_div_natCast]
    · rw [Int.fdiv_eq_ediv _ (by positivity),
        show ((input_shape.2.2 : ℚ) + 2 * (c.padding.2 : ℚ)
            - (c.dilation.2 : ℚ) * ((c.kernel_size.2 : ℚ) - 1) - 1)
          = (((input_shape.2.2 : ℤ) + 2 * (c.padding.2 : ℤ)
            - (c.dilation.2 : ℤ) * ((c.kernel_size.2 : ℤ) - 1) - 1 : ℤ) : ℚ) by push_cast; ring,
        Rat.floor_intCast_div_natCast]
  · rfl

/-- Witness for C3: the hand-computed case of the claim, derived from the theorem
at a concrete convolution with positive strides. -/
theorem C3_conv_output_shape_witness :
    get_conv_output_shape
      { out_channels := 16, in_channels := 3, kernel_size := (3, 3), stride := (1, 1),
        padding := (0, 0), dilation := (1, 1), weightRef := 0, biasRef := none }
      (3, 32, 32) = (16, 30, 30) :=
  (C3_conv_output_shape
    { out_channels := 16, in_channels := 3, kernel_size := (3, 3), stride := (1, 1),
      padding := (0, 0), dilation := (1, 1), weightRef := 0, biasRef := none }
    (3, 32, 32) (by decide) (by decide)).2

/-! ### Claim about the linear-to-convolution conversion -/

/-- Claim C2: converting a linear layer with declared input shape (c, h, w):
if `in_features ≠ c*h*w` the builder fails with the shape-mismatch error;
otherwise it produces a convolution with kernel size (h, w), out channels equal
to the linear out features, padding 0, stride 1, whose weight tensor is the
row-major reshape of the linear weight from (out features, in features) to
(out features, c, h, w), so that flattening the converted weight back
reproduces the original linear weight exactly. -/
theorem C2_linear_to_conv (l : LinObj) (c hh ww : ℕ) :
    (l.in_features ≠ c * hh * ww →
      convert_linear_to_conv l (c, hh, ww) = .error (.valueError "Shapes dont match.")) ∧
    (l.in_features = c * hh * ww →
      ∃ pc, convert_linear_to_conv l (c, hh, ww) = .ok pc ∧
        pc.kernel_size = (hh, ww) ∧ pc.out_channels = l.out_features ∧
        pc.padding = (0, 0) ∧ pc.stride = (1, 1) ∧
        pc.weight = reshape_lin_weight l hh ww ∧
        ∀ o f, flatten_weight hh ww pc.weight o f = l.weight o f) := by
  constructor
  · intro hne
    simp [convert_linear_to_conv, hne]
  · intro heq
    refine ⟨{ out_channels := l.out_features, in_channels := c, kernel_size := (hh, ww),
              stride := (1, 1), padding := (0, 0), dilation := (1, 1),
              weight := reshape_lin_weight l hh ww, bias := l.bias },
      by simp [convert_linear_to_conv, heq], rfl, rfl, rfl, rfl, rfl, ?_⟩
    intro o f
    show reshape_lin_weight l hh ww o (f / (hh * ww)) (f % (hh * ww) / ww)
        (f % (hh * ww) % ww) = l.weight o f
    unfold reshape_lin_weight
    congr 1
    have h2 : f % (hh * ww) / ww * ww + f % (hh * ww) % ww = f % (hh * ww) := by
      rw [Nat.mul_comm (f % (hh * ww) / ww) ww]
      exact Nat.div_add_mod _ _
    have h1 : f / (hh * ww) * (hh * ww) + f % (hh * ww) = f := by
      rw [Nat.mul_comm (f / (hh * ww)) (hh * ww)]
      exact Nat.div_add_mod _ _
    calc f / (hh * ww) * (hh * ww) + f % (hh * ww) / ww * ww + f % (hh * ww) % ww
        = f / (hh * ww) * (hh * ww) + (f % (hh * ww) / ww * ww + f % (hh * ww) % ww) := by ring
      _ = f / (hh * ww) * (hh * ww) + f % (hh * ww) := by rw [h2]
      _ = f := h1

/-- Witness for C2: the example of the claim, Linear(in_features=12,
out_features=4) with declared input shape (3, 2, 2), converted through the
theorem; the converted weight flattens back to the original linear weight. -/
theorem C2_linear_to_conv_witness :
    ∃ pc, convert_linear_to_conv
        { in_features := 12, out_features := 4,
          weight := fun o f => (o * 12 + f : ℝ), bias := none } (3, 2, 2) = .ok pc ∧
      pc.kernel_size = (2, 2) ∧ pc.out_channels = 4 ∧
      pc.padding = (0, 0) ∧ pc.stride = (1, 1) ∧
      ∀ o f, flatten_weight 2 2 pc.weight o f = (o * 12 + f : ℝ) := by
  obtain ⟨pc, hok, hk, ho, hp, hst, _, hflat⟩ :=
    (C2_linear_to_conv
      { in_features := 12, out_features := 4,
        weight := fun o f => (o * 12 + f : ℝ), bias := none } 3 2 2).2 (by decide)
  exact ⟨pc, hok, hk, ho, hp, hst, hflat⟩

/-! ### Claim about configuration validation -/

/-- Claim C8: `make_config` returns a configuration artifact only when the
target-specific validator accepts the assembled configuration; whenever
validation reports the configuration invalid, `make_config` raises an error
naming the device and returns nothing — it never emits a configuration that has
not passed validation successfully. -/
theorem C8_make_config_validation {Config : Type} (cb : ConfigBuilder Config)
    (config_modifier : Option (Config → Config)) (device : String) :
    (∀ cfg, make_config cb config_modifier device = .ok cfg →
      cb.validate cfg = true ∧ cfg = (make_config_inner cb config_modifier).1)
    ∧ (cb.validate (make_config_inner cb config_modifier).1 = false →
      make_config cb config_modifier device =
        .error (.valueError ("Generated config is not valid for " ++ device))) := by
  constructor
  · intro cfg hok
    unfold make_config at hok
    by_cases hv : (make_config_inner cb config_modifier).2 = true
    · rw [if_pos hv] at hok
      cases hok
      exact ⟨hv, rfl⟩
    · rw [if_neg hv] at hok
      cases hok
  · intro hv
    unfold make_config
    rw [if_neg (by rw [show (make_config_inner cb config_modifier).2
      = cb.validate (make_config_inner cb config_modifier).1 from rfl, hv]; simp)]

/-- Witness for C8: a builder whose validator rejects the assembled
configuration makes `make_config` raise the device-naming error. -/
theorem C8_make_config_validation_witness :
    make_config (⟨false, id, id⟩ : ConfigBuilder Bool) none "speck2b:0" =
      .error (.valueError ("Generated config is not valid for " ++ "speck2b:0")) :=
  (C8_make_config_validation (⟨false, id, id⟩ : ConfigBuilder Bool) none "speck2b:0").2 rfl

/-! ### Claims about batch-norm folding -/

/-- Claim C9: `merge_conv_bn` leaves the convolution passed in unmodified: the
original weight and bias heap cells still hold their old values after the call;
when the fold returns, the folded parameters have been written only to the
fresh copy (references distinct from the originals), which is the returned
convolution. -/
theorem C9_merge_conv_bn_frame (h : Heap) (conv : ConvObj) (bn : BNObj)
    (hwf : h.wfConv conv) :
    ((merge_conv_bn h conv bn).1.w conv.weightRef = h.w conv.weightRef)
    ∧ (∀ r, conv.biasRef = some r → (merge_conv_bn h conv bn).1.b r = h.b r)
    ∧ (∀ conv2, (merge_conv_bn h conv bn).2 = .ok conv2 →
        conv2.weightRef ≠ conv.weightRef
        ∧ (∀ r r2, conv.biasRef = some r → conv2.biasRef = some r2 → r2 ≠ r)
        ∧ (merge_conv_bn h conv bn).1.w conv2.weightRef = (fun o i x y =>
            h.w conv.weightRef o i x y *
              ((if bn.affine then bn.weight o else 1) / Real.sqrt (bn.running_var o)))
        ∧ (∀ r r2, conv.biasRef = some r → conv2.biasRef = some r2 →
            (merge_conv_bn h conv bn).1.b r2 = (fun o =>
              (if bn.affine then bn.bias o else 0) +
                (h.b r o - bn.running_mean o) *
                  ((if bn.affine then bn.weight o else 1) / Real.sqrt (bn.running_var o))))) := by
  have hwne : conv.weightRef ≠ h.nw := Nat.ne_of_lt hwf.1
  rcases hbias : conv.biasRef with _ | r0
  · refine ⟨?_, ?_, ?_⟩
    · simp only [merge_conv_bn, hbias, Heap.allocW, Heap.writeW]
      rw [Function.update_noteq hwne, Function.update_noteq hwne]
    · intro r hr
      cases hr
    · intro conv2 hok
      simp only [merge_conv_bn, hbias] at hok
      cases hok
  · have hbne : r0 ≠ h.nb := Nat.ne_of_lt (hwf.2 r0 hbias)
    refine ⟨?_, ?_, ?_⟩
    · simp only [merge_conv_bn, hbias, Heap.allocW, Heap.allocB, Heap.writeW, Heap.writeB]
      rw [Function.update_noteq hwne, Function.update_noteq hwne]
    · intro r hr
      obtain rfl := Option.some.inj hr
      simp only [merge_conv_bn, hbias, Heap.allocW, Heap.allocB, Heap.writeW, Heap.writeB]
      rw [Function.update_noteq hbne, Function.update_noteq hbne]
    · intro conv2 hok
      simp only [merge_conv_bn, hbias] at hok
      cases hok
      refine ⟨Ne.symm hwne, ?_, ?_, ?_⟩
      · intro r r2 hr hr2
        obtain rfl := Option.some.inj hr
        obtain rfl := Option.some.inj hr2
        exact Ne.symm hbne
      · simp only [merge_conv_bn, hbias, Heap.allocW, Heap.allocB, Heap.writeW, Heap.writeB]
        rw [Function.update_same]
      · intro r r2 hr hr2
        obtain rfl := Option.some.inj hr
        obtain rfl := Option.some.inj hr2
        simp only [merge_conv_bn, hbias, Heap.allocW, Heap.allocB, Heap.writeW, Heap.writeB]
        rw [Function.update_same]

/-- Witness for C9: folding a concrete affine batch norm into the convolution at
heap reference 1 of `heap3` leaves that reference's tensor unchanged. -/
theorem C9_merge_conv_bn_frame_witness :
    (merge_conv_bn heap3 convM
      { running_mean := fun _ => 0, running_var := fun _ => 4, affine := false,
        weight := fun _ => 1, bias := fun _ => 0 }).1.w convM.weightRef
      = heap3.w convM.weightRef :=
  (C9_merge_conv_bn_frame heap3 convM
    { running_mean := fun _ => 0, running_var := fun _ => 4, affine := false,
      weight := fun _ => 1, bias := fun _ => 0 }
    ⟨by decide, by intro r hr; cases hr⟩).1

/-- Claim C5 (evaluation at the failing input): folding a batch norm into a
bias-less convolution does not return the folded convolution with old bias
taken as 0 — after the deep copy the bias is still `None`, the copied weight is
overwritten, and the assignment `conv.bias.data = ...` raises `AttributeError`. -/
theorem C5_merge_conv_bn_biasless_raises :
    (merge_conv_bn heap3 convU
      { running_mean := fun _ => 0, running_var := fun _ => 1, affine := false,
        weight := fun _ => 1, bias := fun _ => 0 }).2
      = .error (.attributeError "NoneType object has no attribute data") := rfl

/-! ### Lemmas about the hardware-layer builder -/

theorem checkPools_ok_of_square (pools : List SumPoolObj)
    (hsq : ∀ p ∈ pools, ∃ k, p.kernel_size = IntOrPair.pair k ∧ k.1 = k.2) :
    checkPools pools = .ok pools := by
  induction pools with
  | nil => rfl
  | cons p rest ih =>
    obtain ⟨k, hk, hkk⟩ := hsq p (by simp)
    have ihr := ih (fun x hx => hsq x (by simp [hx]))
    simp [checkPools, hk, hkk, ihr]

theorem checkPools_error_of_nonsquare (pools : List SumPoolObj)
    (hpairs : ∀ p ∈ pools, ∃ q, p.kernel_size = IntOrPair.pair q)
    (hbad : ∃ p ∈ pools, ∃ q, p.kernel_size = IntOrPair.pair q ∧ q.1 ≠ q.2) :
    checkPools pools = .error (.valueError "Only square kernels are supported") := by
  induction pools with
  | nil => simp at hbad
  | cons p rest ih =>
    obtain ⟨q, hq⟩ := hpairs p (by simp)
    by_cases hsq : q.1 = q.2
    · have hbad2 : ∃ x ∈ rest, ∃ q2, x.kernel_size = IntOrPair.pair q2 ∧ q2.1 ≠ q2.2 := by
        obtain ⟨x, hx, q2, hq2, hne⟩ := hbad
        rcases List.mem_cons.mp hx with rfl | hmem
        · rw [hq] at hq2
          cases hq2
          exact absurd hsq hne
        · exact ⟨x, hmem, q2, hq2, hne⟩
      have ihr := ih (fun x hx => hpairs x (by simp [hx])) hbad2
      simp [checkPools, hq, hsq, ihr]
    · simp [checkPools, hq, hsq]

theorem areaProd_cumKernel (chain : List NNModule) :
    areaProd chain = (cumKernel chain).1 * (cumKernel chain).2 := by
  induction chain with
  | nil => rfl
  | cons m rest ih =>
    simp only [areaProd, cumKernel, ih]
    ring

theorem DynapcnnLayer_init_conv2d_spec (h : Heap) (c : ConvObj) (spk : SpkObj)
    (pools : List SumPoolObj) (in_shape : ℕ × ℕ × ℕ) (disc : Bool) (scale : ℝ) (q : ℚ)
    (hpools : checkPools pools = .ok pools) :
    (DynapcnnLayer_init h (.conv2d c) spk pools in_shape disc scale q).2 =
      .ok { conv_layer :=
              { c with weightRef := h.nw, biasRef := c.biasRef.map (fun _ => h.nb) },
            spk_layer :=
              if disc then { spike_threshold := truncTowardZero (scale * spk.spike_threshold) }
              else spk,
            pool_layer := pools }
    ∧ (DynapcnnLayer_init h (.conv2d c) spk pools in_shape disc scale q).1.w h.nw
        = discTensor disc scale (rescaleTensor q (h.w c.weightRef))
    ∧ (∀ r, r ≠ h.nw →
        (DynapcnnLayer_init h (.conv2d c) spk pools in_shape disc scale q).1.w r = h.w r)
    ∧ (∀ r, r ≠ h.nb →
        (DynapcnnLayer_init h (.conv2d c) spk pools in_shape disc scale q).1.b r = h.b r)
    ∧ (DynapcnnLayer_init h (.conv2d c) spk pools in_shape disc scale q).1.nw = h.nw + 1 := by
  rcases hbias : c.biasRef with _ | r0 <;> cases disc <;> by_cases hq : q = 1 <;>
    refine ⟨?_, ?_, fun r hr => ?_, fun r hr => ?_, ?_⟩ <;>
    simp [DynapcnnLayer_init, deepcopyConvVal, Heap.allocConv, Heap.allocW, Heap.allocB,
      Heap.writeW, Heap.writeB, applyDiscretize, discretize_conv_spike, hbias, hpools, hq,
      rescaleTensor, discTensor, Function.update_same, Function.update_noteq, Option.map] <;>
    rw [Function.update_noteq hr]

theorem construct_pool_spec (chain : List NNModule) (m : NNModule) (rest : List NNModule)
    (hch : ∀ x ∈ chain, isPoolB x = true ∧ scanOkB x = true) (hm : isPoolB m = false) :
    construct_next_pooling_layer (chain ++ m :: rest) =
      .ok ((if cumKernel chain = (1, 1) then none
            else some { kernel_size := .pair (cumKernel chain), stride := none }),
        chain.length, if cumKernel chain = (1, 1) then 1 else areaProd chain) := by
  unfold construct_next_pooling_layer
  rw [poolScan_append_ok chain hch, poolScan_break hm]
  by_cases hc : cumKernel chain = (1, 1)
  · have hc1 : cumKernel chain = 1 := by rw [← Prod.mk_one_one]; exact hc
    simp [hc1, hc]
  · have hc1 : cumKernel chain ≠ 1 := by rw [← Prod.mk_one_one]; exact hc
    simp [hc1, hc]

theorem construct_group_conv (h : Heap) (c : ConvObj) (s : SpkObj)
    (chain : List NNModule) (m : NNModule) (rest : List NNModule)
    (in_shape : ℕ × ℕ × ℕ) (disc : Bool) (scale : ℝ) (q : ℚ)
    (hch : ∀ x ∈ chain, isPoolB x = true ∧ scanOkB x = true) (hm : isPoolB m = false) :
    construct_next_dynapcnn_layer h
        (.conv2d c :: .spiking s :: (chain ++ m :: rest)) in_shape disc scale q =
      ((DynapcnnLayer_init h (.conv2d c) s
          (if cumKernel chain = (1, 1) then []
           else [{ kernel_size := .pair (cumKernel chain), stride := none }])
          in_shape disc scale q).1,
       ((DynapcnnLayer_init h (.conv2d c) s
          (if cumKernel chain = (1, 1) then []
           else [{ kernel_size := .pair (cumKernel chain), stride := none }])
          in_shape disc scale q).2).map
         (fun lay => (lay, 2 + chain.length,
           if cumKernel chain = (1, 1) then 1 else areaProd chain))) := by
  dsimp only [construct_next_dynapcnn_layer, construct_tail]
  rw [construct_pool_spec chain m rest hch hm]
  by_cases hc : cumKernel chain = (1, 1)
  · simp only [hc, ite_true]
    try dsimp only
    rcases hI : DynapcnnLayer_init h (.conv2d c) s [] in_shape disc scale q with ⟨h1, res⟩
    cases res <;> rfl
  · simp only [hc, ite_false]
    try dsimp only
    rcases hI : DynapcnnLayer_init h (.conv2d c) s
      [{ kernel_size := .pair (cumKernel chain), stride := none }]
      in_shape disc scale q with ⟨h1, res⟩
    cases res <;> rfl

theorem construct_group_conv_last (h : Heap) (c : ConvObj) (s : SpkObj)
    (in_shape : ℕ × ℕ × ℕ) (disc : Bool) (scale : ℝ) (q : ℚ) :
    construct_next_dynapcnn_layer h [.conv2d c, .spiking s] in_shape disc scale q =
      ((DynapcnnLayer_init h (.conv2d c) s [] in_shape disc scale q).1,
       ((DynapcnnLayer_init h (.conv2d c) s [] in_shape disc scale q).2).map
         (fun lay => (lay, 2, 1))) := by
  have hpool0 : construct_next_pooling_layer ([] : List NNModule) = .ok (none, 0, 1) := rfl
  dsimp only [construct_next_dynapcnn_layer, construct_tail]
  rw [hpool0]
  dsimp only
  rcases hI : DynapcnnLayer_init h (.conv2d c) s [] in_shape disc scale q with ⟨h1, res⟩
  cases res <;> rfl

/-! ### Claims about rejection of non-square pooling kernels -/

/-- Claim C7 (amended): a pooling layer with non-square kernel is rejected with
the `ValueError` constraint violation during construction of its own group's
hardware layer — inside `DynapcnnLayer.__init__`, after the group's pooling
nodes have been gathered — so no hardware-layer descriptor is ever constructed
from a group containing that pooling node; hardware layers of earlier groups
may already have been built at that point. -/
theorem C7_nonsquare_pool_rejected (h : Heap) (c : ConvObj) (spk : SpkObj)
    (pools : List SumPoolObj) (in_shape : ℕ × ℕ × ℕ) (disc : Bool) (scale : ℝ) (resc : ℚ)
    (hpairs : ∀ p ∈ pools, ∃ q, p.kernel_size = IntOrPair.pair q)
    (hbad : ∃ p ∈ pools, ∃ q, p.kernel_size = IntOrPair.pair q ∧ q.1 ≠ q.2) :
    (DynapcnnLayer_init h (.conv2d c) spk pools in_shape disc scale resc).2
      = .error (.valueError "Only square kernels are supported") := by
  have hcp := checkPools_error_of_nonsquare pools hpairs hbad
  unfold DynapcnnLayer_init
  rw [hcp]

/-- Witness for C7 (amended): a group with a (2, 3) pooling kernel fails layer
construction with the square-kernel constraint violation. -/
theorem C7_nonsquare_pool_rejected_witness :
    (DynapcnnLayer_init heap3 (.conv2d convU) ⟨1⟩
        [{ kernel_size := .pair (2, 3), stride := none }] (1, 1, 1) false 0 1).2
      = .error (.valueError "Only square kernels are supported") :=
  C7_nonsquare_pool_rejected heap3 convU ⟨1⟩
    [{ kernel_size := .pair (2, 3), stride := none }] (1, 1, 1) false 0 1
    (by intro p hp; rw [List.mem_singleton] at hp; subst hp; exact ⟨(2, 3), rfl⟩)
    ⟨_, List.mem_singleton_self _, (2, 3), rfl, by decide⟩

/-- Counterexample to C7 as stated: compiling the two-group chain `chainNS`, whose
second group carries a non-square (2, 3) pooling, the rejection does not happen
"before any HardwareLayer is built" and not "before grouping completes": the
first call of `construct_next_dynapcnn_layer` builds and returns a complete
hardware-layer descriptor for the first group; the pooling consolidation
(the gathering of the second group's trailing pooling) itself succeeds and
returns the consolidated (2, 3) sum pooling; only afterwards, inside
`DynapcnnLayer.__init__` for the second group, is the constraint violation
raised. -/
theorem C7_counterexample :
    (construct_next_dynapcnn_layer heap3 chainNS (1, 1, 1) false 0 1).2
      = .ok ({ conv_layer := { convU with weightRef := 3 }, spk_layer := ⟨1⟩,
               pool_layer := [] }, 2, 1)
    ∧ construct_next_pooling_layer (chainNS.drop 4)
        = .ok (some { kernel_size := .pair (2, 3), stride := none }, 0, 6)
    ∧ (construct_next_dynapcnn_layer
         (construct_next_dynapcnn_layer heap3 chainNS (1, 1, 1) false 0 1).1
         (chainNS.drop 2) (1, 1, 1) false 0 1).2
      = .error (.valueError "Only square kernels are supported") :=
  ⟨rfl, rfl, rfl⟩

/-! ### Claims about the rescale factor of consolidated average pooling -/

/-- Claim C1 (amended): for every layer group whose trailing pooling chain is
consolidated into a sum pooling with cumulative rescale factor r, the builder
does not apply r to that group's own convolution weights — with incoming factor
1 the group's weight is only copied (and possibly discretized); r is recorded,
returned by `construct_next_dynapcnn_layer`, and when passed to the next builder
call it is applied as a divide to the DOWNSTREAM (next) layer's convolution
weights, the division being performed on a fresh copy of that convolution
(the original heap cell is unchanged) after copying and before discretization. -/
theorem C1_rescale_applied_downstream (h : Heap) (cA cB : ConvObj) (sA sB : SpkObj)
    (chain : List NNModule) (in_shape : ℕ × ℕ × ℕ) (disc : Bool) (scale : ℝ)
    (hwfA : cA.weightRef < h.nw) (hwfB : cB.weightRef < h.nw)
    (hch : ∀ x ∈ chain, isPoolB x = true ∧ scanOkB x = true)
    (hK : cumKernel chain ≠ (1, 1))
    (hsq : (cumKernel chain).1 = (cumKernel chain).2) :
    ∃ h1 layA h2 layB,
      construct_next_dynapcnn_layer h
          (.conv2d cA :: .spiking sA :: (chain ++ .conv2d cB :: [.spiking sB]))
          in_shape disc scale 1
        = (h1, .ok (layA, 2 + chain.length, areaProd chain))
      ∧ h1.w layA.conv_layer.weightRef = discTensor disc scale (h.w cA.weightRef)
      ∧ h1.w cA.weightRef = h.w cA.weightRef
      ∧ construct_next_dynapcnn_layer h1 (.conv2d cB :: [.spiking sB]) in_shape disc scale
          (areaProd chain : ℚ)
        = (h2, .ok (layB, 2, 1))
      ∧ layB.conv_layer.weightRef ≠ cB.weightRef
      ∧ h2.w cB.weightRef = h.w cB.weightRef
      ∧ h2.w layB.conv_layer.weightRef
          = discTensor disc scale
              (fun o ci i j => h.w cB.weightRef o ci i j / ((areaProd chain : ℚ) : ℝ)) := by
  have har : areaProd chain ≠ 1 := by
    rw [areaProd_cumKernel]
    intro hcontra
    rw [← hsq] at hcontra
    have h1 : (cumKernel chain).1 = 1 := Nat.eq_one_of_mul_eq_one_right hcontra
    exact hK (Prod.ext_iff.mpr ⟨h1, hsq ▸ h1⟩)
  have hq1 : (areaProd chain : ℚ) ≠ 1 := by exact_mod_cast har
  have hpoolsq : checkPools
      [{ kernel_size := IntOrPair.pair (cumKernel chain), stride := none }]
      = .ok [{ kernel_size := IntOrPair.pair (cumKernel chain), stride := none }] :=
    checkPools_ok_of_square _ (by
      intro p hp
      rw [List.mem_singleton] at hp
      subst hp
      exact ⟨cumKernel chain, rfl, hsq⟩)
  obtain ⟨hA1, hA2, hA3, hA4, hA5⟩ :=
    DynapcnnLayer_init_conv2d_spec h cA sA
      [{ kernel_size := IntOrPair.pair (cumKernel chain), stride := none }]
      in_shape disc scale 1 hpoolsq
  have hcall1 := construct_group_conv h cA sA chain (.conv2d cB) [.spiking sB]
    in_shape disc scale 1 hch rfl
  simp only [if_neg hK] at hcall1
  rw [hA1] at hcall1
  simp only [Except.map] at hcall1
  obtain ⟨hB1, hB2, hB3, hB4, hB5⟩ :=
    DynapcnnLayer_init_conv2d_spec
      (DynapcnnLayer_init h (.conv2d cA) sA
        [{ kernel_size := IntOrPair.pair (cumKernel chain), stride := none }]
        in_shape disc scale 1).1
      cB sB [] in_shape disc scale (areaProd chain : ℚ) rfl
  have hcall2 := construct_group_conv_last
    (DynapcnnLayer_init h (.conv2d cA) sA
      [{ kernel_size := IntOrPair.pair (cumKernel chain), stride := none }]
      in_shape disc scale 1).1
    cB sB in_shape disc scale (areaProd chain : ℚ)
  rw [hB1] at hcall2
  simp only [Except.map] at hcall2
  refine ⟨_, _, _, _, hcall1, ?_, ?_, hcall2, ?_, ?_, ?_⟩
  · have hval := hA2
    simp only [rescaleTensor, ne_eq, not_true_eq_false, ite_false] at hval
    exact hval
  · exact hA3 cA.weightRef (Nat.ne_of_lt hwfA)
  · dsimp only
    rw [hA5]
    omega
  · have hne2 : cB.weightRef ≠
        (DynapcnnLayer_init h (.conv2d cA) sA
          [{ kernel_size := IntOrPair.pair (cumKernel chain), stride := none }]
          in_shape disc scale 1).1.nw := by
      rw [hA5]
      omega
    rw [hB3 cB.weightRef hne2]
    exact hA3 cB.weightRef (Nat.ne_of_lt hwfB)
  · dsimp only
    rw [hB2, hA3 cB.weightRef (Nat.ne_of_lt hwfB)]
    unfold rescaleTensor
    rw [if_pos hq1]

/-- Witness for C1 (amended): a two-group chain over `heap3` whose first group
carries one 2x2 average pooling (rescale factor 4), applied through the theorem
at concrete inputs. -/
theorem C1_rescale_applied_downstream_witness :
    ∃ h1 layA h2 layB,
      construct_next_dynapcnn_layer heap3
          (.conv2d convU :: .spiking ⟨1⟩ :: ([avgSq 2] ++ .conv2d convM :: [.spiking ⟨1⟩]))
          (1, 1, 1) false 0 1
        = (h1, .ok (layA, 2 + [avgSq 2].length, areaProd [avgSq 2]))
      ∧ h1.w layA.conv_layer.weightRef = discTensor false 0 (heap3.w convU.weightRef)
      ∧ h1.w convU.weightRef = heap3.w convU.weightRef
      ∧ construct_next_dynapcnn_layer h1 (.conv2d convM :: [.spiking ⟨1⟩]) (1, 1, 1) false 0
          (areaProd [avgSq 2] : ℚ)
        = (h2, .ok (layB, 2, 1))
      ∧ layB.conv_layer.weightRef ≠ convM.weightRef
      ∧ h2.w convM.weightRef = heap3.w convM.weightRef
      ∧ h2.w layB.conv_layer.weightRef
          = discTensor false 0
              (fun o ci i j =>
                heap3.w convM.weightRef o ci i j / ((areaProd [avgSq 2] : ℚ) : ℝ)) :=
  C1_rescale_applied_downstream heap3 convU convM ⟨1⟩ ⟨1⟩ [avgSq 2] (1, 1, 1) false 0
    (by decide) (by decide) (by decide) (by decide) (by decide)

/-- Counterexample to C1 as stated: in the three-group chain `chain3` (groups U,
M, D with initial constant weights 2, 5, 3), the middle group's 2x2 average
pooling is consolidated with rescale factor 4 (second conjunct, factor returned
by the builder).  The factor is not applied to the UPSTREAM layer's convolution
weights: after all three builder calls, the weight of the hardware layer built
for group U (heap cell 3) still holds 2 — not 2 / 4 — while the factor is
applied as a divide to the DOWNSTREAM layer: the weight of the layer built for
group D (heap cell 5) holds 3 / 4. -/
theorem C1_counterexample :
    (construct_next_dynapcnn_layer heap3 chain3 (1, 1, 1) false 0 1).2
      = .ok ({ conv_layer := { convU with weightRef := 3 }, spk_layer := ⟨1⟩,
               pool_layer := [] }, 2, 1)
    ∧ (construct_next_dynapcnn_layer
         (construct_next_dynapcnn_layer heap3 chain3 (1, 1, 1) false 0 1).1
         (chain3.drop 2) (1, 1, 1) false 0 1).2
      = .ok ({ conv_layer := { convM with weightRef := 4 }, spk_layer := ⟨1⟩,
               pool_layer := [{ kernel_size := .pair (2, 2), stride := none }] }, 3, 4)
    ∧ (construct_next_dynapcnn_layer
         (construct_next_dynapcnn_layer
           (construct_next_dynapcnn_layer heap3 chain3 (1, 1, 1) false 0 1).1
           (chain3.drop 2) (1, 1, 1) false 0 1).1
         (chain3.drop 5) (1, 1, 1) false 0 4).1.w 3 0 0 0 0 = 2
    ∧ (2 : ℝ) ≠ 2 / 4
    ∧ (construct_next_dynapcnn_layer
         (construct_next_dynapcnn_layer
           (construct_next_dynapcnn_layer heap3 chain3 (1, 1, 1) false 0 1).1
           (chain3.drop 2) (1, 1, 1) false 0 1).1
         (chain3.drop 5) (1, 1, 1) false 0 4).1.w 5 0 0 0 0 = 3 / 4 := by
  refine ⟨rfl, rfl, rfl, by norm_num, ?_⟩
  have hred : (construct_next_dynapcnn_layer
      (construct_next_dynapcnn_layer
        (construct_next_dynapcnn_layer heap3 chain3 (1, 1, 1) false 0 1).1
        (chain3.drop 2) (1, 1, 1) false 0 1).1
      (chain3.drop 5) (1, 1, 1) false 0 4).1.w 5 0 0 0 0 = (3 : ℝ) / ((4 : ℚ) : ℝ) := rfl
  rw [hred]
  norm_num

end Sinabs

end
